import Mathlib

/-!
Verification of the split-tunneling UI module
(`src/client/web/app/split_tunneling.cordova.ts`).

The code has two parts:
* a data-access module: `getInstalledApps` and `setAllowedApps`, thin
  wrappers over the external `pluginExec` bridge (the bridge itself and
  `JSON.parse` are external collaborators, modelled as abstract functions);
* the `SplitTunnelingView` component: transient UI state (app list,
  selection set, search query, loading flag), search filtering, selection
  toggling, and a 500 ms debounce that pushes the selection through
  `setAllowedApps` and dispatches an `AllowedAppsChanged` event.

The component and its timer/event environment are embedded as explicit
state (`Component`, `Sys`); asynchronous rejection is an `Except` value.
JavaScript `Set<string>` is embedded as an insertion-ordered duplicate-free
`List String` (`[...set]` spreads in insertion order).
-/

namespace SplitTunneling

/-- `AppInfo` record: `{ packageName: string; label: string }`. -/
structure AppInfo where
  packageName : String
  label : String
deriving Repr, DecidableEq

/-- Argument marshalled through the plugin bridge.  The only structured
argument the module ever passes is a package-name list. -/
inductive PluginArg where
  | packages (l : List String)
deriving Repr, DecidableEq

/-- The external `pluginExec` collaborator: marshals a method name and
arguments to native code; resolves with a string or rejects with a
native-side error.  It is out of scope, so it is an abstract function. -/
def PluginBridge : Type := String → List PluginArg → Except String String

/-- `JSON.parse` specialised at `AppInfo[]`, an external collaborator:
abstract function that may throw. -/
def JsonParser : Type := String → Except String (List AppInfo)

/-- `getInstalledApps`: awaits the bridge at method "getInstalledApps",
then `JSON.parse` of the resulting string; a bridge rejection propagates. -/
def getInstalledApps (bridge : PluginBridge) (jsonParse : JsonParser) :
    Except String (List AppInfo) :=
  match bridge "getInstalledApps" [] with
  | .ok result => jsonParse result
  | .error e => .error e

/-- `setAllowedApps(packages)`: the bridge at method "setAllowedApps"
with the package list as argument;
resolves with void when the bridge resolves, rejects when it rejects. -/
def setAllowedApps (bridge : PluginBridge) (packages : List String) :
    Except String Unit :=
  match bridge "setAllowedApps" [PluginArg.packages packages] with
  | .ok _ => .ok ()
  | .error e => .error e

/-- JavaScript `Set.add`: appends at the end when absent (insertion order). -/
def setAdd (s : List String) (p : String) : List String :=
  if p ∈ s then s else s ++ [p]

/-- `new Set(iterable)`: inserts the elements left to right. -/
def setFromList (l : List String) : List String :=
  l.foldl setAdd []

/-- The body of `toggleApp` on the selection: delete the package if present,
add it otherwise (`newSet.has` / `newSet.delete` / `newSet.add`). -/
def toggleSel (s : List String) (p : String) : List String :=
  if p ∈ s then s.erase p else s ++ [p]

/-- JavaScript `String.prototype.toLowerCase` (default locale), modelled
per character. -/
def jsToLower (s : String) : String :=
  String.mk (s.data.map Char.toLower)

/-- JavaScript `String.prototype.includes`: substring containment. -/
def jsIncludes (s sub : String) : Bool :=
  decide (sub.data <:+: s.data)

/-- The reactive state of `SplitTunnelingView`, with the debounce-timer
handle (`null` or a timer id). -/
structure Component where
  apps : List AppInfo
  selectedApps : List String
  searchQuery : String
  loading : Bool
  applyDebounceTimer : Option Nat
deriving Repr, DecidableEq

/-- The field defaults of `SplitTunnelingView`. -/
def initComponent : Component :=
  { apps := []
    selectedApps := []
    searchQuery := ""
    loading := true
    applyDebounceTimer := none }

/-- The comparator of the sort in `connectedCallback`:
`(a, b) => a.label.localeCompare(b.label)`, i.e. ascending by label
(`localeCompare` modelled as the standard string order). -/
def labelLe (a b : AppInfo) : Bool :=
  a.label ≤ b.label

/-- `this.apps.sort((a, b) => a.label.localeCompare(b.label))`: a stable
sort by label, modelled by `List.mergeSort`. -/
def sortByLabel (apps : List AppInfo) : List AppInfo :=
  apps.mergeSort labelLe

/-- `connectedCallback`: seeds the selection from `initialSelectedApps`,
then tries to load and sort the app list; on rejection logs and falls back
to the empty list; in every case clears the loading flag.  The outcome of
the awaited `getInstalledApps()` call is passed in as `fetchResult`. -/
def connectedCallback (c : Component) (initialSelectedApps : List String)
    (fetchResult : Except String (List AppInfo)) : Component :=
  let c1 := { c with selectedApps := setFromList initialSelectedApps }
  match fetchResult with
  | .ok apps => { c1 with apps := sortByLabel apps, loading := false }
  | .error _ => { c1 with apps := [], loading := false }

/-- The filtering in `render`: lowercase the query; when it is truthy
(non-empty) keep the apps whose lowercased label or package name contains
it, otherwise the whole list. -/
def filteredApps (apps : List AppInfo) (searchQuery : String) : List AppInfo :=
  let query := jsToLower searchQuery
  if query = "" then apps
  else
    apps.filter fun app =>
      jsIncludes (jsToLower app.label) query
        || jsIncludes (jsToLower app.packageName) query

/-- A pending `setTimeout` registration: its id and absolute fire time. -/
structure Timer where
  id : Nat
  fireAt : Nat
deriving Repr, DecidableEq

/-- The component together with its environment: the pending timers, the
timer-id supply, the log of `setAllowedApps` invocations (their package
argument) and of dispatched `AllowedAppsChanged` details. -/
structure Sys where
  comp : Component
  timers : List Timer
  nextId : Nat
  calls : List (List String)
  events : List (List String)
deriving Repr, DecidableEq

/-- `onSearchInput`: `this.searchQuery = input.value` and nothing else. -/
def onSearchInput (sys : Sys) (value : String) : Sys :=
  { sys with comp := { sys.comp with searchQuery := value } }

/-- `applyChanges` at time `now`: clear the pending debounce timer when the
handle is set, register a fresh timer 500 ms out, store its id. -/
def applyChanges (sys : Sys) (now : Nat) : Sys :=
  let timers :=
    match sys.comp.applyDebounceTimer with
    | some tid => sys.timers.filter fun tm => tm.id ≠ tid
    | none => sys.timers
  { sys with
    timers := timers ++ [⟨sys.nextId, now + 500⟩]
    nextId := sys.nextId + 1
    comp := { sys.comp with applyDebounceTimer := some sys.nextId } }

/-- `toggleApp(packageName)` at time `now`: toggle the membership of the
package in the selection set, then `applyChanges()`. -/
def toggleApp (sys : Sys) (now : Nat) (p : String) : Sys :=
  applyChanges
    { sys with comp := { sys.comp with
        selectedApps := toggleSel sys.comp.selectedApps p } }
    now

/-- The debounce callback: capture `packages = [...this.selectedApps]`,
call `setAllowedApps(packages)` (a rejection is caught and only logged),
then dispatch `AllowedAppsChanged` with `{packages}` either way. -/
def runTimerCallback (bridge : PluginBridge) (sys : Sys) : Sys :=
  let packages := sys.comp.selectedApps
  let sys1 := { sys with calls := sys.calls ++ [packages] }
  match setAllowedApps bridge packages with
  | .ok _ => { sys1 with events := sys1.events ++ [packages] }
  | .error _ => { sys1 with events := sys1.events ++ [packages] }

/-- Expiry of the timer `tid`: it is removed from the pending set and its
callback runs. -/
def fireTimer (bridge : PluginBridge) (sys : Sys) (tid : Nat) : Sys :=
  runTimerCallback bridge
    { sys with timers := sys.timers.filter fun tm => tm.id ≠ tid }

/-- Fire every timer due at `now`, one at a time (the callback registers no
new timer, so `sys.timers.length` steps suffice). -/
def fireDueAux (bridge : PluginBridge) : Nat → Sys → Nat → Sys
  | 0, sys, _ => sys
  | fuel + 1, sys, now =>
    match sys.timers.find? (fun tm => tm.fireAt ≤ now) with
    | none => sys
    | some tm => fireDueAux bridge fuel (fireTimer bridge sys tm.id) now

/-- Let the clock reach `now`: every pending timer due by then fires. -/
def fireDue (bridge : PluginBridge) (sys : Sys) (now : Nat) : Sys :=
  fireDueAux bridge sys.timers.length sys now

/-- A user toggle at absolute time `t`: time first advances to `t` (due
timers fire), then `toggleApp` runs. -/
def processToggle (bridge : PluginBridge) (sys : Sys) (t : Nat) (p : String) :
    Sys :=
  toggleApp (fireDue bridge sys t) t p

/-- Process a time-ordered burst of toggles. -/
def runToggles (bridge : PluginBridge) (sys : Sys) :
    List (Nat × String) → Sys
  | [] => sys
  | (t, p) :: rest => runToggles bridge (processToggle bridge sys t p) rest

/-- The toggles after the first one come in time order, each strictly less
than 500 ms after its predecessor. -/
def goodGaps : Nat → List (Nat × String) → Prop
  | _, [] => True
  | prev, (t, _) :: rest => prev ≤ t ∧ t < prev + 500 ∧ goodGaps t rest

/-- The time of the last toggle of the burst (`d` when it is empty). -/
def lastTime (d : Nat) (l : List (Nat × String)) : Nat :=
  l.foldl (fun _ tp => tp.1) d

/-- The spec-side match predicate for the search filter: the label or the
package name contains the query, case-insensitively. -/
def matchesCaseInsensitive (app : AppInfo) (q : String) : Bool :=
  jsIncludes (jsToLower app.label) (jsToLower q)
    || jsIncludes (jsToLower app.packageName) (jsToLower q)

/-! ## Theorems -/

/-- C2: `toggleApp` removes the package when it is selected, adds it when
it is not, and leaves the membership of every other package unchanged.
The `Nodup` hypothesis is the `Set<string>` representation invariant. -/
theorem toggleSel_membership (S : List String) (p : String) (h : S.Nodup) :
    (p ∈ S → p ∉ toggleSel S p) ∧
    (p ∉ S → p ∈ toggleSel S p) ∧
    (∀ q, q ≠ p → (q ∈ toggleSel S p ↔ q ∈ S)) := by
  refine ⟨fun hp => ?_, fun hp => ?_, fun q hq => ?_⟩
  · rw [toggleSel, if_pos hp]
    exact h.not_mem_erase
  · rw [toggleSel, if_neg hp]
    simp
  · by_cases hp : p ∈ S
    · rw [toggleSel, if_pos hp]
      exact List.mem_erase_of_ne hq
    · rw [toggleSel, if_neg hp]
      simp [hq]

/-- Witness for C2 at a concrete selection. -/
theorem toggleSel_membership_witness :
    "a" ∉ toggleSel ["a", "b"] "a" :=
  (toggleSel_membership ["a", "b"] "a" (by decide)).1 (by decide)

/-- C9: toggling the same package twice restores the selection set, as a
set (same membership for every package). -/
theorem toggleSel_involutive (S : List String) (p : String) (h : S.Nodup) :
    ∀ q, q ∈ toggleSel (toggleSel S p) p ↔ q ∈ S := by
  intro q
  by_cases hp : p ∈ S
  · simp only [toggleSel, if_pos hp, if_neg h.not_mem_erase]
    by_cases hq : q = p
    · subst hq
      simp [hp]
    · simp [hq, List.mem_erase_of_ne hq]
  · simp only [toggleSel, if_neg hp, if_pos (show p ∈ S ++ [p] by simp)]
    rw [List.erase_append_right _ hp]
    simp

/-- Witness for C9 at a concrete selection. -/
theorem toggleSel_involutive_witness :
    "b" ∈ toggleSel (toggleSel ["a", "b"] "b") "b" ↔ "b" ∈ ["a", "b"] :=
  toggleSel_involutive ["a", "b"] "b" (by decide) "b"

/-- C4: `getInstalledApps` returns exactly the JSON-parse of the string the
bridge resolves with for method `getInstalledApps` (and no arguments), and
rejects when the bridge rejects. -/
theorem getInstalledApps_spec (bridge : PluginBridge) (jsonParse : JsonParser) :
    (∀ s, bridge "getInstalledApps" [] = .ok s →
      getInstalledApps bridge jsonParse = jsonParse s) ∧
    (∀ e, bridge "getInstalledApps" [] = .error e →
      getInstalledApps bridge jsonParse = .error e) := by
  constructor
  · intro s hs
    rw [getInstalledApps, hs]
  · intro e he
    rw [getInstalledApps, he]

/-- Witness for C4: a bridge resolving with the empty JSON array. -/
theorem getInstalledApps_spec_witness :
    getInstalledApps (fun _ _ => .ok "[]") (fun _ => .ok []) = .ok [] :=
  (getInstalledApps_spec (fun _ _ => .ok "[]") (fun _ => .ok [])).1 "[]" rfl

/-- C5: `setAllowedApps` consults the bridge exactly at method
`setAllowedApps` with the given package list as argument, resolves with
void when the bridge resolves, and rejects when the bridge rejects. -/
theorem setAllowedApps_spec (bridge : PluginBridge) (packages : List String) :
    (∀ bridge2 : PluginBridge,
      bridge "setAllowedApps" [PluginArg.packages packages] =
        bridge2 "setAllowedApps" [PluginArg.packages packages] →
      setAllowedApps bridge packages = setAllowedApps bridge2 packages) ∧
    (∀ s, bridge "setAllowedApps" [PluginArg.packages packages] = .ok s →
      setAllowedApps bridge packages = .ok ()) ∧
    (∀ e, bridge "setAllowedApps" [PluginArg.packages packages] = .error e →
      setAllowedApps bridge packages = .error e) := by
  refine ⟨fun bridge2 h12 => ?_, fun s hs => ?_, fun e he => ?_⟩
  · rw [setAllowedApps, setAllowedApps, h12]
  · rw [setAllowedApps, hs]
  · rw [setAllowedApps, he]

/-- Witness for C5: a resolving and a rejecting bridge. -/
theorem setAllowedApps_spec_witness :
    setAllowedApps (fun _ _ => .error "native failure") ["com.a"] =
      .error "native failure" :=
  (setAllowedApps_spec (fun _ _ => .error "native failure") ["com.a"]).2.2
    "native failure" rfl

/-- C6: when the load rejects, `connectedCallback` falls back to the empty
app list; on success and on failure alike the loading flag ends up `false`,
and the error does not escape (`connectedCallback` is a total function into
`Component`). -/
theorem connectedCallback_error_handling (c : Component) (ini : List String) :
    (∀ e, (connectedCallback c ini (.error e)).apps = []) ∧
    (∀ r, (connectedCallback c ini r).loading = false) := by
  refine ⟨fun e => rfl, fun r => ?_⟩
  cases r <;> rfl

/-- C7: `onSearchInput` updates the search query and nothing else: app
list, selection, loading flag, debounce-timer handle, pending timers,
bridge-call log and event log are all untouched. -/
theorem onSearchInput_frame (sys : Sys) (value : String) :
    (onSearchInput sys value).comp.searchQuery = value ∧
    (onSearchInput sys value).comp.apps = sys.comp.apps ∧
    (onSearchInput sys value).comp.selectedApps = sys.comp.selectedApps ∧
    (onSearchInput sys value).comp.loading = sys.comp.loading ∧
    (onSearchInput sys value).comp.applyDebounceTimer
      = sys.comp.applyDebounceTimer ∧
    (onSearchInput sys value).timers = sys.timers ∧
    (onSearchInput sys value).calls = sys.calls ∧
    (onSearchInput sys value).events = sys.events :=
  ⟨rfl, rfl, rfl, rfl, rfl, rfl, rfl, rfl⟩

/-- C8: after a successful load, the app list is a permutation of what the
bridge returned, sorted ascending by label. -/
theorem connectedCallback_sorted (c : Component) (ini : List String)
    (apps : List AppInfo) :
    (connectedCallback c ini (.ok apps)).apps.Perm apps ∧
    List.Pairwise (fun a b : AppInfo => a.label ≤ b.label)
      (connectedCallback c ini (.ok apps)).apps := by
  have htrans : ∀ a b c : AppInfo, labelLe a b → labelLe b c → labelLe a c := by
    intro a b c hab hbc
    simp only [labelLe, decide_eq_true_eq] at *
    exact le_trans hab hbc
  have htotal : ∀ a b : AppInfo, labelLe a b || labelLe b a := by
    intro a b
    simp only [labelLe, Bool.or_eq_true, decide_eq_true_eq]
    exact le_total a.label b.label
  constructor
  · exact List.mergeSort_perm apps labelLe
  · refine (List.sorted_mergeSort htrans htotal apps).imp ?_
    intro a b hab
    simpa [labelLe] using hab

/-- C3: with a non-empty query the rendered list is exactly the filter of
the app list by case-insensitive containment of the query in label or
package name (so in particular in the order of the underlying list), and
with the empty query it is the full list. -/
theorem render_filter (apps : List AppInfo) (q : String) :
    (q ≠ "" →
      filteredApps apps q = apps.filter fun app => matchesCaseInsensitive app q) ∧
    filteredApps apps "" = apps := by
  constructor
  · intro hq
    have hq2 : jsToLower q ≠ "" := by
      simpa [jsToLower, String.ext_iff] using fun h => hq (String.ext h)
    rw [filteredApps]
    simp only [if_neg hq2]
    rfl
  · rfl

/-- Witness for C3 at a concrete list and query. -/
theorem render_filter_witness :
    filteredApps [⟨"com.a", "Alpha"⟩, ⟨"com.b", "Beta"⟩] "AL" =
      List.filter
        (fun app => matchesCaseInsensitive app "AL")
        [⟨"com.a", "Alpha"⟩, ⟨"com.b", "Beta"⟩] :=
  (render_filter [⟨"com.a", "Alpha"⟩, ⟨"com.b", "Beta"⟩] "AL").1 (by decide)

/-- C10: when the debounce timer fires, the `AllowedAppsChanged` event is
dispatched with the captured package list in every case; in particular a
`setAllowedApps` rejection is caught and neither suppresses the event nor
alters its detail (and the bridge call itself still happened). -/
theorem debounce_event_on_rejection :
    (∀ (bridge : PluginBridge) (sys : Sys),
      (runTimerCallback bridge sys).events
        = sys.events ++ [sys.comp.selectedApps]) ∧
    (∀ (bridge : PluginBridge) (sys : Sys) (e : String),
      setAllowedApps bridge sys.comp.selectedApps = .error e →
      (runTimerCallback bridge sys).calls
          = sys.calls ++ [sys.comp.selectedApps] ∧
      (runTimerCallback bridge sys).events
          = sys.events ++ [sys.comp.selectedApps]) := by
  constructor
  · intro bridge sys
    rw [runTimerCallback]
    cases setAllowedApps bridge sys.comp.selectedApps <;> rfl
  · intro bridge sys e he
    rw [runTimerCallback, he]
    exact ⟨rfl, rfl⟩

/-- The debounce callback only appends to the two logs: the component, the
pending timers and the id supply are untouched, and the captured package
list is appended to both logs whatever the bridge outcome. -/
theorem runTimerCallback_spec (bridge : PluginBridge) (sys : Sys) :
    (runTimerCallback bridge sys).comp = sys.comp ∧
    (runTimerCallback bridge sys).timers = sys.timers ∧
    (runTimerCallback bridge sys).nextId = sys.nextId ∧
    (runTimerCallback bridge sys).calls = sys.calls ++ [sys.comp.selectedApps] ∧
    (runTimerCallback bridge sys).events
      = sys.events ++ [sys.comp.selectedApps] := by
  rw [runTimerCallback]
  cases setAllowedApps bridge sys.comp.selectedApps <;>
    exact ⟨rfl, rfl, rfl, rfl, rfl⟩

/-- When no pending timer is due at `now`, advancing the clock to `now`
changes nothing. -/
theorem fireDueAux_no_due (bridge : PluginBridge) (fuel : Nat) (sys : Sys)
    (now : Nat) (h : ∀ tm ∈ sys.timers, ¬ tm.fireAt ≤ now) :
    fireDueAux bridge fuel sys now = sys := by
  cases fuel with
  | zero => rfl
  | succ n =>
    have hn : sys.timers.find? (fun tm => tm.fireAt ≤ now) = none :=
      List.find?_eq_none.mpr fun tm hm => by simpa using h tm hm
    simp only [fireDueAux, hn]

/-- `fireDue` without due timers is the identity. -/
theorem fireDue_no_due (bridge : PluginBridge) (sys : Sys) (now : Nat)
    (h : ∀ tm ∈ sys.timers, ¬ tm.fireAt ≤ now) :
    fireDue bridge sys now = sys :=
  fireDueAux_no_due bridge sys.timers.length sys now h

/-- When exactly one timer is pending and due, advancing the clock runs its
callback once, with the timer removed. -/
theorem fireDue_singleton (bridge : PluginBridge) (sys : Sys)
    (now tid tf : Nat) (ht : sys.timers = [⟨tid, tf⟩]) (hle : tf ≤ now) :
    fireDue bridge sys now
      = runTimerCallback bridge { sys with timers := [] } := by
  have hfind : sys.timers.find? (fun tm => tm.fireAt ≤ now)
      = some ⟨tid, tf⟩ := by
    rw [ht]
    exact List.find?_cons_of_pos _ (by simpa using hle)
  have hfilter : sys.timers.filter (fun tm => tm.id ≠ tid) = [] := by
    rw [ht]
    simp
  rw [fireDue, ht]
  simp only [List.length_singleton, fireDueAux, hfind]
  rw [fireTimer, hfilter]

/-- `toggleApp` at `now`, when exactly one timer is pending and its id is
the stored handle: the old timer is cancelled, one fresh timer is pending
500 ms out, the selection is toggled, and no call or event happens. -/
theorem toggleApp_step (sys : Sys) (now : Nat) (p : String) (tid tf : Nat)
    (ht : sys.timers = [⟨tid, tf⟩])
    (hd : sys.comp.applyDebounceTimer = some tid) :
    (toggleApp sys now p).timers = [⟨sys.nextId, now + 500⟩] ∧
    (toggleApp sys now p).comp.applyDebounceTimer = some sys.nextId ∧
    (toggleApp sys now p).comp.selectedApps
      = toggleSel sys.comp.selectedApps p ∧
    (toggleApp sys now p).calls = sys.calls ∧
    (toggleApp sys now p).events = sys.events ∧
    (toggleApp sys now p).nextId = sys.nextId + 1 := by
  refine ⟨?_, ?_, ?_, ?_, ?_, ?_⟩ <;>
    simp [toggleApp, applyChanges, hd, ht]

/-- `toggleApp` from a state with no pending timer and a `null` handle:
one fresh timer is pending 500 ms out, the selection is toggled, and no
call or event happens. -/
theorem toggleApp_first (sys : Sys) (now : Nat) (p : String)
    (ht : sys.timers = []) (hd : sys.comp.applyDebounceTimer = none) :
    (toggleApp sys now p).timers = [⟨sys.nextId, now + 500⟩] ∧
    (toggleApp sys now p).comp.applyDebounceTimer = some sys.nextId ∧
    (toggleApp sys now p).comp.selectedApps
      = toggleSel sys.comp.selectedApps p ∧
    (toggleApp sys now p).calls = sys.calls ∧
    (toggleApp sys now p).events = sys.events ∧
    (toggleApp sys now p).nextId = sys.nextId + 1 := by
  refine ⟨?_, ?_, ?_, ?_, ?_, ?_⟩ <;>
    simp [toggleApp, applyChanges, hd, ht]

/-- Invariant of a debounced burst: starting with exactly one pending
timer registered at `tprev` whose id is the stored handle, a sequence of
toggles each within 500 ms of its predecessor fires nothing: it keeps
exactly one pending timer (registered at the last toggle), folds the
toggles into the selection, and performs no call and no event. -/
theorem runToggles_inv (bridge : PluginBridge) :
    ∀ (toggles : List (Nat × String)) (sys : Sys) (tprev tid : Nat),
      sys.timers = [⟨tid, tprev + 500⟩] →
      sys.comp.applyDebounceTimer = some tid →
      goodGaps tprev toggles →
      ∃ tid2,
        (runToggles bridge sys toggles).timers
          = [⟨tid2, lastTime tprev toggles + 500⟩] ∧
        (runToggles bridge sys toggles).comp.applyDebounceTimer = some tid2 ∧
        (runToggles bridge sys toggles).comp.selectedApps
          = toggles.foldl (fun s tp => toggleSel s tp.2)
              sys.comp.selectedApps ∧
        (runToggles bridge sys toggles).calls = sys.calls ∧
        (runToggles bridge sys toggles).events = sys.events := by
  intro toggles
  induction toggles with
  | nil =>
    intro sys tprev tid ht hd _
    exact ⟨tid, ht, hd, rfl, rfl, rfl⟩
  | cons tp rest ih =>
    obtain ⟨t, p⟩ := tp
    intro sys tprev tid ht hd hg
    obtain ⟨h1, h2, h3⟩ := hg
    have hfd : fireDue bridge sys t = sys := by
      apply fireDue_no_due
      intro tm hm
      rw [ht] at hm
      simp only [List.mem_singleton] at hm
      subst hm
      show ¬ tprev + 500 ≤ t
      omega
    obtain ⟨s1, s2, s3, s4, s5, s6⟩ :=
      toggleApp_step sys t p tid (tprev + 500) ht hd
    obtain ⟨tid2, r1, r2, r3, r4, r5⟩ :=
      ih (toggleApp sys t p) t sys.nextId s1 s2 h3
    have hrun : runToggles bridge sys ((t, p) :: rest)
        = runToggles bridge (toggleApp sys t p) rest := by
      rw [runToggles, processToggle, hfd]
    refine ⟨tid2, ?_, ?_, ?_, ?_, ?_⟩
    · rw [hrun]
      exact r1
    · rw [hrun]
      exact r2
    · rw [hrun, r3, s3]
      rfl
    · rw [hrun, r4, s4]
    · rw [hrun, r5, s5]

/-- C1: every `applyChanges` cancels the pending debounce timer (when the
handle is set) and registers a fresh timer 500 ms out; consequently a burst
of toggles with consecutive gaps under 500 ms performs no push while it
lasts and exactly one push when the surviving timer fires: one
`setAllowedApps` call with the selection as it stands then, and one
`AllowedAppsChanged` event carrying that same package list. -/
theorem applyChanges_debounce :
    (∀ (sys : Sys) (now tid : Nat),
      sys.comp.applyDebounceTimer = some tid →
      (applyChanges sys now).timers
          = sys.timers.filter (fun tm => tm.id ≠ tid)
              ++ [⟨sys.nextId, now + 500⟩] ∧
      (applyChanges sys now).comp.applyDebounceTimer = some sys.nextId) ∧
    (∀ (bridge : PluginBridge) (c0 : Component) (t0 : Nat) (p0 : String)
        (rest : List (Nat × String)) (T : Nat),
      c0.applyDebounceTimer = none →
      goodGaps t0 rest →
      lastTime t0 rest + 500 ≤ T →
      (runToggles bridge ⟨c0, [], 0, [], []⟩ ((t0, p0) :: rest)).calls = [] ∧
      (runToggles bridge ⟨c0, [], 0, [], []⟩ ((t0, p0) :: rest)).events = [] ∧
      (runToggles bridge ⟨c0, [], 0, [], []⟩
          ((t0, p0) :: rest)).comp.selectedApps
        = ((t0, p0) :: rest).foldl (fun s tp => toggleSel s tp.2)
            c0.selectedApps ∧
      (fireDue bridge
          (runToggles bridge ⟨c0, [], 0, [], []⟩ ((t0, p0) :: rest)) T).calls
        = [(runToggles bridge ⟨c0, [], 0, [], []⟩
            ((t0, p0) :: rest)).comp.selectedApps] ∧
      (fireDue bridge
          (runToggles bridge ⟨c0, [], 0, [], []⟩ ((t0, p0) :: rest)) T).events
        = [(runToggles bridge ⟨c0, [], 0, [], []⟩
            ((t0, p0) :: rest)).comp.selectedApps]) := by
  constructor
  · intro sys now tid hd
    refine ⟨?_, ?_⟩ <;> simp [applyChanges, hd]
  · intro bridge c0 t0 p0 rest T h0 hg hT
    have hfd0 : fireDue bridge ⟨c0, [], 0, [], []⟩ t0 = ⟨c0, [], 0, [], []⟩ := by
      apply fireDue_no_due
      intro tm hm
      exact absurd hm (List.not_mem_nil tm)
    have hrun : runToggles bridge ⟨c0, [], 0, [], []⟩ ((t0, p0) :: rest)
        = runToggles bridge (toggleApp ⟨c0, [], 0, [], []⟩ t0 p0) rest := by
      rw [runToggles, processToggle, hfd0]
    obtain ⟨s1, s2, s3, s4, s5, s6⟩ :=
      toggleApp_first ⟨c0, [], 0, [], []⟩ t0 p0 rfl h0
    obtain ⟨tid2, r1, r2, r3, r4, r5⟩ :=
      runToggles_inv bridge rest (toggleApp ⟨c0, [], 0, [], []⟩ t0 p0)
        t0 0 s1 s2 hg
    have hfire := fireDue_singleton bridge
      (runToggles bridge (toggleApp ⟨c0, [], 0, [], []⟩ t0 p0) rest)
      T tid2 (lastTime t0 rest + 500) r1 hT
    refine ⟨?_, ?_, ?_, ?_, ?_⟩
    · rw [hrun, r4, s4]
    · rw [hrun, r5, s5]
    · rw [hrun, r3, s3]
      rfl
    · rw [hrun, hfire, (runTimerCallback_spec bridge _).2.2.2.1, r4, s4]
      rfl
    · rw [hrun, hfire, (runTimerCallback_spec bridge _).2.2.2.2, r5, s5]
      rfl

/-- Witness for C1: a burst of two toggles 100 ms apart, fired at 700 ms,
yields exactly one event with the final selection. -/
theorem applyChanges_debounce_witness :
    (fireDue (fun _ _ => Except.ok "")
        (runToggles (fun _ _ => Except.ok "")
          ⟨initComponent, [], 0, [], []⟩ [(0, "a"), (100, "b")]) 700).events
      = [(runToggles (fun _ _ => Except.ok "")
          ⟨initComponent, [], 0, [], []⟩
            [(0, "a"), (100, "b")]).comp.selectedApps] :=
  (applyChanges_debounce.2 (fun _ _ => Except.ok "") initComponent 0 "a"
    [(100, "b")] 700 rfl (by simp [goodGaps]) (by decide)).2.2.2.2

/-- Witness for C10: a rejecting bridge still yields the event. -/
theorem debounce_event_on_rejection_witness :
    (runTimerCallback (fun _ _ => .error "boom")
        ⟨initComponent, [], 0, [], []⟩).events = [[]] :=
  ((debounce_event_on_rejection.2 (fun _ _ => .error "boom")
    ⟨initComponent, [], 0, [], []⟩ "boom" rfl).2)

end SplitTunneling
